import Mathlib

/-!
Shallow embedding of `src/HW10.py` (a contact-book homework program) and
verification of the specification's claims about it.

Modelling conventions:
* Python exceptions become an explicit error channel `Except PyErr _`.
  `PyErr.otherError` stands for any Python exception outside the three
  classes (`ValueError`, `KeyError`, `IndexError`) that the `input_error`
  decorator catches.
* Python strings are Lean `String`s; the regex `\d` of `re.fullmatch` is
  modelled over its ASCII fragment, a character in `'0'..'9'` (claims talk
  about decimal digits, which is this fragment on the inputs of interest).
* `datetime.date` becomes `PyDate` (year/month/year fields plus the
  validity predicate CPython enforces at construction: year in 1..9999 and
  a real proleptic-Gregorian calendar day).
* Mutation of records and of the address book becomes explicit state
  passing; each handler body returns its message (or error) together with
  the book state after the call, so partial mutation before an exception
  is observable, exactly as in Python.
-/

namespace HW10

/-- Python exception kinds relevant to the program.  The `input_error`
decorator catches exactly `valueError`, `keyError` and `indexError`;
`otherError` models every other exception class. -/
inductive PyErr where
  | valueError (msg : String)
  | keyError
  | indexError
  | otherError
deriving DecidableEq, Repr

/-- `True` for the exception kinds that the `input_error` decorator catches. -/
def PyErr.caught : PyErr → Bool
  | .otherError => false
  | _ => true

/-! ## Field classes -/

/-- `Name` field: `Name.__init__` stores the raw string (via `Field.__init__`). -/
structure Name where
  value : String
deriving DecidableEq, Repr

/-- Error message raised by `Name.__init__` on a falsy value. -/
def nameErrMsg : String := "Ім'я не може бути порожнім"

/-- `Name(value)`: raises `ValueError` iff `not value`, i.e. iff the string
is empty (`if not value: raise ValueError(...)`, line 16). -/
def Name.init (value : String) : Except PyErr Name :=
  if value = "" then .error (.valueError nameErrMsg) else .ok ⟨value⟩

/-- `Phone` field: stores the raw string. -/
structure Phone where
  value : String
deriving DecidableEq, Repr

/-- ASCII decimal digit, the fragment of the regex `\d` we model. -/
def isDig (c : Char) : Bool := '0' ≤ c && c ≤ '9'

/-- `Phone.validate`: `re.fullmatch(r"\d{10}", phone_number) is not None`
(line 29): the whole string is exactly ten digit characters. -/
def Phone.validate (s : String) : Bool :=
  decide (s.data.length = 10) && s.data.all isDig

/-- Error message raised by `Phone.__init__` on an invalid number. -/
def phoneErrMsg : String := "Номер телефону має містити рівно 10 цифр"

/-- `Phone(value)`: raises `ValueError` unless `validate(value)` (lines 22-25). -/
def Phone.init (value : String) : Except PyErr Phone :=
  if Phone.validate value then .ok ⟨value⟩ else .error (.valueError phoneErrMsg)

/-! ## Dates and the `Birthday` field -/

/-- A `datetime.date`: the raw year/month/day fields.  Validity (CPython
enforces it at construction) is the separate predicate `validDate`. -/
structure PyDate where
  year : Nat
  month : Nat
  day : Nat
deriving DecidableEq, Repr

/-- Gregorian leap-year rule, as used by `datetime`. -/
def isLeap (y : Nat) : Bool :=
  y % 4 = 0 && (y % 100 != 0 || y % 400 = 0)

/-- Length of month `m` of year `y` (`0` for a month outside `1..12`). -/
def daysInMonth (y m : Nat) : Nat :=
  match m with
  | 1 => 31 | 2 => if isLeap y then 29 else 28 | 3 => 31 | 4 => 30
  | 5 => 31 | 6 => 30 | 7 => 31 | 8 => 31 | 9 => 30 | 10 => 31
  | 11 => 30 | 12 => 31 | _ => 0

/-- The triple `(y, m, d)` is accepted by the `datetime.date` constructor:
year in `MINYEAR..MAXYEAR = 1..9999`, real calendar month and day. -/
def validDate (y m d : Nat) : Bool :=
  decide (1 ≤ y) && decide (y ≤ 9999) && decide (1 ≤ m) && decide (m ≤ 12) &&
    decide (1 ≤ d) && decide (d ≤ daysInMonth y m)

/-- Splitting a character list at every `'.'`, like Python's
`"…".split(".")`: the format `"%d.%m.%Y"` consumes its two literal dots
between the three field patterns, so `strptime` partitions the input at the
dots (no field pattern ever matches a dot, see the token lemmas). -/
def splitOnDot (l : List Char) : List (List Char) :=
  match l with
  | [] => [[]]
  | c :: rest =>
    let r := splitOnDot rest
    if c = '.' then [] :: r else (c :: r.headD []) :: r.tail

/-- Inverse of `splitOnDot`: interleave the parts with dots. -/
def joinDots : List (List Char) → List Char
  | [] => []
  | [p] => p
  | p :: ps => p ++ '.' :: joinDots ps

/-- Numeric value of an ASCII digit character. -/
def digitVal (c : Char) : Nat := c.toNat - 48

/-- A character in `'1'..'9'`. -/
def isNonzeroDig (c : Char) : Bool := '1' ≤ c && c ≤ '9'

/-- The `%d` field of CPython `strptime` (regex
`3[01]|[12]\d|0[1-9]|[1-9]| [1-9]`): one digit `1..9`, a space followed by
a digit `1..9`, or two digits with value `1..31`.  Zero-padding is
accepted but not required. -/
def dayTok : List Char → Option Nat
  | [c] => if isNonzeroDig c then some (digitVal c) else none
  | [c1, c2] =>
    if c1 = ' ' then
      if isNonzeroDig c2 then some (digitVal c2) else none
    else if isDig c1 && isDig c2 then
      let v := 10 * digitVal c1 + digitVal c2
      if 1 ≤ v ∧ v ≤ 31 then some v else none
    else none
  | _ => none

/-- The `%m` field of CPython `strptime` (regex `1[0-2]|0[1-9]|[1-9]`):
one digit `1..9` or two digits with value `1..12`. -/
def monthTok : List Char → Option Nat
  | [c] => if isNonzeroDig c then some (digitVal c) else none
  | [c1, c2] =>
    if isDig c1 && isDig c2 then
      let v := 10 * digitVal c1 + digitVal c2
      if 1 ≤ v ∧ v ≤ 12 then some v else none
    else none
  | _ => none

/-- The `%Y` field of CPython `strptime` (regex `\d\d\d\d`): exactly four
digits. -/
def yearTok : List Char → Option Nat
  | [c1, c2, c3, c4] =>
    if isDig c1 && isDig c2 && isDig c3 && isDig c4 then
      some (1000 * digitVal c1 + 100 * digitVal c2 + 10 * digitVal c3 + digitVal c4)
    else none
  | _ => none

/-- `Birthday` field: stores the parsed `datetime.date` (line 35). -/
structure Birthday where
  value : PyDate
deriving DecidableEq, Repr

/-- Error message raised by `Birthday.__init__` on a parse failure. -/
def birthdayErrMsg : String := "Неправильний формат дати. Використовуйте DD.MM.YYYY"

/-- `Birthday(value)`: `datetime.strptime(value, "%d.%m.%Y").date()`, with
any `ValueError` (unparsable string or impossible calendar date) replaced
by the fixed message (lines 33-38). -/
def Birthday.init (s : String) : Except PyErr Birthday :=
  match splitOnDot s.data with
  | [ds, ms, ys] =>
    match dayTok ds, monthTok ms, yearTok ys with
    | some d, some m, some y =>
      if validDate y m d then .ok ⟨⟨y, m, d⟩⟩ else .error (.valueError birthdayErrMsg)
    | _, _, _ => .error (.valueError birthdayErrMsg)
  | _ => .error (.valueError birthdayErrMsg)

/-- Two decimal digits, zero padded (`%d` / `%m` of `strftime`). -/
def pad2 (n : Nat) : List Char :=
  [Nat.digitChar (n / 10 % 10), Nat.digitChar (n % 10)]

/-- Four decimal digits, zero padded. -/
def pad4 (n : Nat) : List Char :=
  [Nat.digitChar (n / 1000 % 10), Nat.digitChar (n / 100 % 10),
   Nat.digitChar (n / 10 % 10), Nat.digitChar (n % 10)]

/-- The `%Y` field of `strftime` as glibc renders it (observed behavior of
the program's platform): the year as a plain decimal number with no zero
padding, so year `5` prints as `"5"`, not `"0005"`.  Years are at most
`9999` (`datetime.MAXYEAR`), so four explicit width cases cover it. -/
def yearChars (y : Nat) : List Char :=
  if 1000 ≤ y then pad4 y
  else if 100 ≤ y then
    [Nat.digitChar (y / 100 % 10), Nat.digitChar (y / 10 % 10), Nat.digitChar (y % 10)]
  else if 10 ≤ y then [Nat.digitChar (y / 10 % 10), Nat.digitChar (y % 10)]
  else [Nat.digitChar (y % 10)]

/-- `Birthday.__str__`: `self.value.strftime("%d.%m.%Y")` (line 41): day
and month zero-padded to two digits, year as a plain decimal number. -/
def Birthday.toString (b : Birthday) : String :=
  ⟨pad2 b.value.day ++ '.' :: (pad2 b.value.month ++ '.' :: yearChars b.value.year)⟩

/-- The spec's wire format, written from its words: a two-digit zero-padded
day, a dot, a two-digit zero-padded month, a dot, a four-digit year. -/
def isZeroPaddedDMY (s : String) : Bool :=
  match s.data with
  | [d1, d2, '.', m1, m2, '.', y1, y2, y3, y4] =>
    isDig d1 && isDig d2 && isDig m1 && isDig m2 &&
      isDig y1 && isDig y2 && isDig y3 && isDig y4
  | _ => false

/-- The strings `Birthday.init` accepts, spelled out as a decomposition of
the character list: day token, dot, month token, dot, year token, with the
resulting triple a real calendar date. -/
def LenientFmt (s : String) : Prop :=
  ∃ ds ms ys d m y, s.data = ds ++ '.' :: (ms ++ '.' :: ys) ∧
    dayTok ds = some d ∧ monthTok ms = some m ∧ yearTok ys = some y ∧
    validDate y m d = true

/-! ## Records -/

/-- A contact record: one name, an ordered phone list, an optional
birthday (lines 44-48). -/
structure Record where
  name : Name
  phones : List Phone
  birthday : Option Birthday
deriving DecidableEq, Repr

/-- `Record(name)`: builds the `Name` (which may raise on an empty
string); phones start empty and the birthday absent (lines 45-48). -/
def Record.init (name : String) : Except PyErr Record :=
  (Name.init name).map fun n => ⟨n, [], none⟩

/-- `Record.add_phone` (lines 50-52): validates through the `Phone`
constructor and appends. -/
def Record.add_phone (r : Record) (phone : String) : Except PyErr Record :=
  (Phone.init phone).map fun p => { r with phones := r.phones ++ [p] }

/-- `Record.delete_phone` (lines 54-55): keeps the phones whose value
differs; silent no-op when none match. -/
def Record.delete_phone (r : Record) (phone : String) : Record :=
  { r with phones := r.phones.filter (fun p => p.value != phone) }

/-- One pass of the `edit_phone` loop (lines 58-61): the first phone whose
value equals `old` gets its `value` field assigned the RAW string `new` —
the code performs no `Phone` validation here; `none` when no phone
matches. -/
def editPhones : List Phone → String → String → Option (List Phone)
  | [], _, _ => none
  | p :: rest, old, new =>
    if p.value = old then some (⟨new⟩ :: rest)
    else (editPhones rest old new).map (p :: ·)

/-- Error message raised by `edit_phone` when the old number is absent. -/
def editNotFoundMsg : String := "Номер телефону не знайдено"

/-- `Record.edit_phone` (lines 57-62). -/
def Record.edit_phone (r : Record) (old new : String) : Except PyErr Record :=
  match editPhones r.phones old new with
  | some ps => .ok { r with phones := ps }
  | none => .error (.valueError editNotFoundMsg)

/-- `Record.add_birthday` (lines 64-65): builds a `Birthday` (may raise)
and replaces any existing one. -/
def Record.add_birthday (r : Record) (birthday : String) : Except PyErr Record :=
  (Birthday.init birthday).map fun b => { r with birthday := some b }

/-- `Record.show_birthday` (lines 67-68). -/
def Record.show_birthday (r : Record) : String :=
  match r.birthday with
  | some b => "День народження: " ++ b.toString
  | none => "День народження не встановлений"

/-- `sep.join(...)` over an already-built list of strings. -/
def joinSep (sep : String) : List String → String
  | [] => ""
  | [x] => x
  | x :: rest => x ++ sep ++ joinSep sep rest

/-- `Record.__str__` (lines 70-72). -/
def Record.render (r : Record) : String :=
  "Ім'я контакту: " ++ r.name.value ++ ", телефони: " ++
    joinSep "; " (r.phones.map Phone.value) ++ ", " ++ r.show_birthday

/-! ## The address book -/

/-- `AddressBook(UserDict)` (line 75): an insertion-ordered mapping from
name strings to records, modelled as an association list with unique keys
in insertion order, exactly the observable behavior of a Python dict. -/
abbrev AddressBook := List (String × Record)

/-- `dict.__setitem__`: an existing key keeps its position and gets the
new value; a new key is appended at the end. -/
def dictSet : AddressBook → String → Record → AddressBook
  | [], k, v => [(k, v)]
  | (k2, v2) :: rest, k, v =>
    if k2 = k then (k2, v) :: rest else (k2, v2) :: dictSet rest k v

/-- `AddressBook.add_record` (lines 76-77):
`self.data[record.name.value] = record`. -/
def add_record (book : AddressBook) (record : Record) : AddressBook :=
  dictSet book record.name.value record

/-- `AddressBook.find_record` (lines 85-86): `self.data.get(name, None)`. -/
def find_record : AddressBook → String → Option Record
  | [], _ => none
  | (k, v) :: rest, name => if k = name then some v else find_record rest name

/-- `AddressBook.delete_record` (lines 79-83): removes the entry for the
name or raises `ValueError` when absent (keys are unique, so filtering
removes exactly the one entry). -/
def delete_record (book : AddressBook) (name : String) : Except PyErr AddressBook :=
  if (find_record book name).isSome then .ok (book.filter (fun e => e.1 != name))
  else .error (.valueError ("Запис з ім'ям '" ++ name ++ "' не знайдено"))

/-! ## Upcoming birthdays -/

/-- Days before January 1st of year `y` in the proleptic Gregorian
calendar — the ordinal arithmetic behind `date` subtraction. -/
def daysBeforeYear (y : Nat) : Nat :=
  365 * (y - 1) + (y - 1) / 4 - (y - 1) / 100 + (y - 1) / 400

/-- Days of year `y` that precede the first day of month `m`. -/
def daysBeforeMonth (y m : Nat) : Nat :=
  ((List.range (m - 1)).map (fun i => daysInMonth y (i + 1))).sum

/-- `date.toordinal()`: day number of the date. -/
def toOrdinal (dt : PyDate) : Nat :=
  daysBeforeYear dt.year + daysBeforeMonth dt.year dt.month + dt.day

/-- `(a - b).days`, the signed day difference of two dates. -/
def dateSub (a b : PyDate) : Int :=
  (toOrdinal a : Int) - (toOrdinal b : Int)

/-- Error message of `date.replace` on a day absent from the target
year/month (`datetime`'s own message). -/
def dayRangeMsg : String := "day is out of range for month"

/-- `record.birthday.value.replace(year=today.year)` (line 93):
reconstructs the date with the new year, revalidating; raises
`ValueError` when the day does not exist there (Feb 29, non-leap year). -/
def dateReplaceYear (b : PyDate) (y : Nat) : Except PyErr PyDate :=
  if validDate y b.month b.day then .ok ⟨y, b.month, b.day⟩
  else .error (.valueError dayRangeMsg)

/-- The loop of `get_upcoming_birthdays` (lines 91-95) over the records
in insertion order: skip records without a birthday, replace the year (a
raise aborts the whole query), keep the record when the difference in
days lies in `0..days`. -/
def upcomingAux (today : PyDate) (days : Int) : List Record → Except PyErr (List Record)
  | [] => .ok []
  | r :: rest =>
    match r.birthday with
    | none => upcomingAux today days rest
    | some b =>
      match dateReplaceYear b.value today.year with
      | .error e => .error e
      | .ok bd =>
        if 0 ≤ dateSub bd today ∧ dateSub bd today ≤ days then
          (upcomingAux today days rest).map (r :: ·)
        else upcomingAux today days rest

/-- `AddressBook.get_upcoming_birthdays(days)` (lines 88-96), with
`datetime.now().date()` made an explicit `today` parameter. -/
def get_upcoming_birthdays (book : AddressBook) (days : Int) (today : PyDate) :
    Except PyErr (List Record) :=
  upcomingAux today days (book.map Prod.snd)

/-- The claim's filter, written from its words: the record has a birthday
set and the birthday with its year replaced by today's year lies between
0 and `days` days from today, both bounds included. -/
def qualifies (today : PyDate) (days : Int) (r : Record) : Bool :=
  match r.birthday with
  | none => false
  | some b =>
    decide (0 ≤ dateSub ⟨today.year, b.value.month, b.value.day⟩ today) &&
      decide (dateSub ⟨today.year, b.value.month, b.value.day⟩ today ≤ days)

/-- The record's birthday (when set) exists in `today`'s year. -/
def replaceOk (today : PyDate) (r : Record) : Bool :=
  match r.birthday with
  | none => true
  | some b => validDate today.year b.value.month b.value.day

/-- All birthdays in the book survive `replace(year=today.year)`. -/
def allReplaceOk (book : AddressBook) (today : PyDate) : Bool :=
  (book.map Prod.snd).all (replaceOk today)

/-- The record's birthday is February 29. -/
def recordFeb29 (r : Record) : Bool :=
  match r.birthday with
  | some b => decide (b.value.month = 2) && decide (b.value.day = 29)
  | none => false

/-- Some record of the book has a February 29 birthday. -/
def hasFeb29 (book : AddressBook) : Bool :=
  (book.map Prod.snd).any recordFeb29

/-! ## Command handlers -/

/-- A handler body's outcome: its message or uncaught exception, together
with the book state after the call (mutations before an exception are
kept, as in Python). -/
abbrev HandlerResult := Except PyErr String × AddressBook

/-- The `input_error` decorator (lines 99-109): converts `ValueError`,
`KeyError` and `IndexError` to user-facing strings; any other exception
kind keeps propagating. -/
def input_error : Except PyErr String → Except PyErr String
  | .ok s => .ok s
  | .error (.valueError m) => .ok ("Помилка: " ++ m)
  | .error .keyError => .ok "Контакт не знайдено"
  | .error .indexError => .ok "Недостатньо аргументів для виконання команди"
  | .error e => .error e

/-- Stand-in for CPython's unpacking error messages (`not enough values
to unpack …` / `too many values to unpack …`); only the kind
(`ValueError`) matters to the program. -/
def unpackErrMsg : String := "values to unpack"

/-- `add_contact` body (lines 112-123): `name, phone, *_ = args` needs at
least two arguments; a missing record is created and inserted BEFORE the
phone is validated; `if phone:` skips empty strings. -/
def add_contact_body (args : List String) (book : AddressBook) : HandlerResult :=
  match args with
  | name :: phone :: _ =>
    match find_record book name with
    | some r =>
      if phone ≠ "" then
        match r.add_phone phone with
        | .ok r2 => (.ok "Контакт оновлено.", add_record book r2)
        | .error e => (.error e, book)
      else (.ok "Контакт оновлено.", book)
    | none =>
      match Record.init name with
      | .error e => (.error e, book)
      | .ok r =>
        let book1 := add_record book r
        if phone ≠ "" then
          match r.add_phone phone with
          | .ok r2 => (.ok "Контакт додано.", add_record book1 r2)
          | .error e => (.error e, book1)
        else (.ok "Контакт додано.", book1)
  | _ => (.error (.valueError unpackErrMsg), book)

/-- `change_contact` body (lines 126-133): `name, old_phone, new_phone =
args` needs exactly three arguments. -/
def change_contact_body (args : List String) (book : AddressBook) : HandlerResult :=
  match args with
  | [name, old_phone, new_phone] =>
    match find_record book name with
    | some r =>
      match r.edit_phone old_phone new_phone with
      | .ok r2 => (.ok "Номер телефону змінено", add_record book r2)
      | .error e => (.error e, book)
    | none => (.ok "Контакт не знайдено", book)
  | _ => (.error (.valueError unpackErrMsg), book)

/-- `show_phone` body (lines 136-142): `args[0]` raises `IndexError` on
an empty list. -/
def show_phone_body (args : List String) (book : AddressBook) : HandlerResult :=
  match args with
  | [] => (.error .indexError, book)
  | name :: _ =>
    match find_record book name with
    | some r =>
      (.ok ("Телефони для " ++ name ++ ": " ++ joinSep ", " (r.phones.map Phone.value)),
       book)
    | none => (.ok "Контакт не знайдено", book)

/-- `add_birthday` body (lines 145-152): `name, birthday = args` needs
exactly two arguments. -/
def add_birthday_body (args : List String) (book : AddressBook) : HandlerResult :=
  match args with
  | [name, birthday] =>
    match find_record book name with
    | some r =>
      match r.add_birthday birthday with
      | .ok r2 => (.ok "День народження додано", add_record book r2)
      | .error e => (.error e, book)
    | none => (.ok "Контакт не знайдено", book)
  | _ => (.error (.valueError unpackErrMsg), book)

/-- `show_birthday` body (lines 155-161). -/
def show_birthday_body (args : List String) (book : AddressBook) : HandlerResult :=
  match args with
  | [] => (.error .indexError, book)
  | name :: _ =>
    match find_record book name with
    | some r => (.ok r.show_birthday, book)
    | none => (.ok "Контакт не знайдено", book)

/-- `f"{record.birthday}"`: `str` of the optional birthday field. -/
def birthdayStr : Option Birthday → String
  | some b => b.toString
  | none => "None"

/-- `birthdays` body (lines 164-172): queries the next 7 days; the book
is never mutated. -/
def birthdays_body (_args : List String) (book : AddressBook) (today : PyDate) :
    HandlerResult :=
  match get_upcoming_birthdays book 7 today with
  | .error e => (.error e, book)
  | .ok [] => (.ok "Немає днів народження найближчим часом", book)
  | .ok ups =>
    (.ok ("Найближчі дні народження:\n" ++
        String.join (ups.map (fun r => r.name.value ++ ": " ++ birthdayStr r.birthday ++ "\n"))),
     book)

/-- `show_all` (lines 175-178): the only handler without the decorator —
it is a total string computation. -/
def show_all (book : AddressBook) : String :=
  if book.isEmpty then "Адресна книга порожня"
  else joinSep "\n" (book.map (fun e => Record.render e.2))

/-! ## Claims C4 and C7 -/

/-- C4: `Phone(s)` succeeds exactly on strings of ten decimal digits, storing
`s` itself; on every other string it fails with the `InvalidFormat`
(`ValueError`) error.  The right-hand sides spell out the format condition
character by character, independently of `Phone.validate`. -/
theorem phone_init_characterization (s : String) :
    (Phone.init s = .ok ⟨s⟩ ↔
      (s.data.length = 10 ∧ ∀ c ∈ s.data, '0' ≤ c ∧ c ≤ '9')) ∧
    (Phone.init s = .error (.valueError phoneErrMsg) ↔
      ¬ (s.data.length = 10 ∧ ∀ c ∈ s.data, '0' ≤ c ∧ c ≤ '9')) := by
  have hspec : Phone.validate s = true ↔
      (s.data.length = 10 ∧ ∀ c ∈ s.data, '0' ≤ c ∧ c ≤ '9') := by
    simp [Phone.validate, isDig, List.all_eq_true, Bool.and_eq_true,
      decide_eq_true_eq]
  constructor
  · constructor
    · intro h
      rw [← hspec]
      by_contra hv
      simp [Phone.init, Bool.not_eq_true] at hv
      simp [Phone.init, hv] at h
    · intro h
      rw [← hspec] at h
      simp [Phone.init, h]
  · constructor
    · intro h
      rw [← hspec]
      intro hv
      simp [Phone.init, hv] at h
    · intro h
      rw [← hspec] at h
      simp [Phone.init, Bool.not_eq_true] at h ⊢
      simp [h]

/-- C7 counterexample: the claim says a whitespace-only name must be
rejected, but `Name(" ")` succeeds: `not " "` is `False` in Python, since
only the empty string is falsy — no stripping happens.  The second and
third conjuncts record that `" "` is non-empty and consists only of
whitespace, so it is a whitespace-only string in the claim's sense. -/
theorem name_init_whitespace_accepted :
    Name.init " " = .ok ⟨" "⟩ ∧ " " ≠ "" ∧ (" ").data.all (· = ' ') = true := by
  refine ⟨by simp [Name.init], by decide, by decide⟩

/-- C7 (amended): `Name(value)` fails (with the `ValueError` carrying the
fixed message) exactly when the string is empty, and succeeds — storing the
raw value — on every non-empty string, whitespace-only ones included. -/
theorem name_init_characterization (s : String) :
    (Name.init s = .error (.valueError nameErrMsg) ↔ s = "") ∧
    (Name.init s = .ok ⟨s⟩ ↔ s ≠ "") := by
  constructor
  · constructor
    · intro h
      by_contra hs
      simp [Name.init, hs] at h
    · intro h
      simp [Name.init, h]
  · constructor
    · intro h
      intro hs
      simp [Name.init, hs] at h
    · intro h
      simp [Name.init, h]

/-- Witness for `name_init_characterization` at the concrete strings `""`
and `"Ann"`. -/
theorem name_init_characterization_witness :
    Name.init "" = .error (.valueError nameErrMsg) ∧ Name.init "Ann" = .ok ⟨"Ann"⟩ :=
  ⟨(name_init_characterization "").1.mpr rfl,
   (name_init_characterization "Ann").2.mpr (by decide)⟩

/-! ## Splitting and token lemmas -/

theorem splitOnDot_ne_nil (l : List Char) : splitOnDot l ≠ [] := by
  cases l with
  | nil => simp [splitOnDot]
  | cons c rest =>
    simp only [splitOnDot]
    split <;> simp

theorem joinDots_splitOnDot (l : List Char) : joinDots (splitOnDot l) = l := by
  induction l with
  | nil => rfl
  | cons c rest ih =>
    obtain ⟨p, ps, hp⟩ : ∃ p ps, splitOnDot rest = p :: ps := by
      cases hsp : splitOnDot rest with
      | nil => exact absurd hsp (splitOnDot_ne_nil rest)
      | cons p ps => exact ⟨p, ps, rfl⟩
    rw [hp] at ih
    simp only [splitOnDot, hp]
    by_cases hc : c = '.'
    · subst hc
      rw [if_pos rfl]
      simp only [joinDots, List.nil_append]
      rw [ih]
    · rw [if_neg hc]
      simp only [List.headD, List.tail]
      cases ps with
      | nil =>
        simp only [joinDots] at ih ⊢
        rw [ih]
      | cons q qs =>
        simp only [joinDots, List.cons_append] at ih ⊢
        rw [ih]

theorem splitOnDot_no_dot {a : List Char} (h : '.' ∉ a) : splitOnDot a = [a] := by
  induction a with
  | nil => rfl
  | cons c rest ih =>
    have hc : c ≠ '.' := fun hc => h (hc ▸ List.mem_cons_self c rest)
    have hrest : '.' ∉ rest := fun hm => h (List.mem_cons_of_mem c hm)
    simp only [splitOnDot, if_neg hc, ih hrest, List.headD, List.tail]

theorem splitOnDot_append {a : List Char} (rest : List Char) (h : '.' ∉ a) :
    splitOnDot (a ++ '.' :: rest) = a :: splitOnDot rest := by
  induction a with
  | nil =>
    show splitOnDot ('.' :: rest) = [] :: splitOnDot rest
    simp [splitOnDot]
  | cons c a' ih =>
    have hc : c ≠ '.' := fun hc => h (hc ▸ List.mem_cons_self c a')
    have ha' : '.' ∉ a' := fun hm => h (List.mem_cons_of_mem c hm)
    show splitOnDot (c :: (a' ++ '.' :: rest)) = (c :: a') :: splitOnDot rest
    simp only [splitOnDot, if_neg hc, ih ha', List.headD, List.tail]

theorem dayTok_no_dot {l : List Char} {d : Nat} (h : dayTok l = some d) : '.' ∉ l := by
  have hnz : isNonzeroDig '.' = false := by decide
  have hdig : isDig '.' = false := by decide
  have hsp : ('.' : Char) ≠ ' ' := by decide
  rcases l with _ | ⟨c1, _ | ⟨c2, _ | ⟨c3, t⟩⟩⟩
  · simp [dayTok] at h
  · intro hm
    rcases List.mem_singleton.mp hm with rfl
    rw [dayTok, hnz] at h
    simp at h
  · intro hm
    rcases List.mem_cons.mp hm with h1 | hm
    · rw [dayTok, ← h1, if_neg hsp, hdig] at h
      simp at h
    · rcases List.mem_singleton.mp hm with rfl
      rw [dayTok, hdig] at h
      split at h
      · rw [hnz] at h; simp at h
      · simp at h
  · simp [dayTok] at h

theorem monthTok_no_dot {l : List Char} {m : Nat} (h : monthTok l = some m) : '.' ∉ l := by
  have hnz : isNonzeroDig '.' = false := by decide
  have hdig : isDig '.' = false := by decide
  rcases l with _ | ⟨c1, _ | ⟨c2, _ | ⟨c3, t⟩⟩⟩
  · simp [monthTok] at h
  · intro hm
    rcases List.mem_singleton.mp hm with rfl
    rw [monthTok, hnz] at h
    simp at h
  · intro hm
    rcases List.mem_cons.mp hm with h1 | hm
    · rw [monthTok, ← h1, hdig] at h
      simp at h
    · rcases List.mem_singleton.mp hm with rfl
      rw [monthTok, hdig] at h
      simp at h
  · simp [monthTok] at h

theorem yearTok_no_dot {l : List Char} {y : Nat} (h : yearTok l = some y) : '.' ∉ l := by
  have hdig : isDig '.' = false := by decide
  rcases l with _ | ⟨c1, _ | ⟨c2, _ | ⟨c3, _ | ⟨c4, _ | ⟨c5, t⟩⟩⟩⟩⟩
  · simp [yearTok] at h
  · simp [yearTok] at h
  · simp [yearTok] at h
  · simp [yearTok] at h
  · intro hm
    have hh : ∀ c ∈ [c1, c2, c3, c4], isDig c = true := by
      rw [yearTok] at h
      intro c hc
      by_contra hcd
      rw [Bool.not_eq_true] at hcd
      fin_cases hc <;> rw [hcd] at h <;> simp at h
    have := hh '.' hm
    rw [hdig] at this
    exact absurd this (by simp)
  · simp [yearTok] at h

/-! ## Digit-rendering lemmas -/

theorem digitChar_isDig : ∀ j, j < 10 → isDig (Nat.digitChar j) = true := by decide

theorem digitChar_ne_dot : ∀ j, j < 10 → Nat.digitChar j ≠ '.' := by decide

theorem digitChar_ne_space : ∀ j, j < 10 → Nat.digitChar j ≠ ' ' := by decide

theorem digitVal_digitChar : ∀ j, j < 10 → digitVal (Nat.digitChar j) = j := by decide

theorem pad2_no_dot (n : Nat) : '.' ∉ pad2 n := by
  have ha : n / 10 % 10 < 10 := Nat.mod_lt _ (by norm_num)
  have hb : n % 10 < 10 := Nat.mod_lt _ (by norm_num)
  intro hm
  rcases List.mem_cons.mp hm with h | hm
  · exact digitChar_ne_dot _ ha h.symm
  · exact digitChar_ne_dot _ hb (List.mem_singleton.mp hm).symm

theorem pad4_no_dot (n : Nat) : '.' ∉ pad4 n := by
  have h1 : n / 1000 % 10 < 10 := Nat.mod_lt _ (by norm_num)
  have h2 : n / 100 % 10 < 10 := Nat.mod_lt _ (by norm_num)
  have h3 : n / 10 % 10 < 10 := Nat.mod_lt _ (by norm_num)
  have h4 : n % 10 < 10 := Nat.mod_lt _ (by norm_num)
  intro hm
  rcases List.mem_cons.mp hm with h | hm
  · exact digitChar_ne_dot _ h1 h.symm
  rcases List.mem_cons.mp hm with h | hm
  · exact digitChar_ne_dot _ h2 h.symm
  rcases List.mem_cons.mp hm with h | hm
  · exact digitChar_ne_dot _ h3 h.symm
  exact digitChar_ne_dot _ h4 (List.mem_singleton.mp hm).symm

theorem dayTok_pad2 {d : Nat} (h1 : 1 ≤ d) (h2 : d ≤ 31) : dayTok (pad2 d) = some d := by
  have ha : d / 10 % 10 < 10 := Nat.mod_lt _ (by norm_num)
  have hb : d % 10 < 10 := Nat.mod_lt _ (by norm_num)
  have hv : 10 * (d / 10 % 10) + d % 10 = d := by omega
  rw [pad2, dayTok, if_neg (digitChar_ne_space _ ha), digitChar_isDig _ ha,
    digitChar_isDig _ hb]
  simp only [Bool.and_self, if_true, digitVal_digitChar _ ha, digitVal_digitChar _ hb, hv]
  rw [if_pos ⟨h1, h2⟩]

theorem monthTok_pad2 {m : Nat} (h1 : 1 ≤ m) (h2 : m ≤ 12) : monthTok (pad2 m) = some m := by
  have ha : m / 10 % 10 < 10 := Nat.mod_lt _ (by norm_num)
  have hb : m % 10 < 10 := Nat.mod_lt _ (by norm_num)
  have hv : 10 * (m / 10 % 10) + m % 10 = m := by omega
  rw [pad2, monthTok, digitChar_isDig _ ha, digitChar_isDig _ hb]
  simp only [Bool.and_self, if_true, digitVal_digitChar _ ha, digitVal_digitChar _ hb, hv]
  rw [if_pos ⟨h1, h2⟩]

theorem yearTok_pad4 {y : Nat} (h : y ≤ 9999) : yearTok (pad4 y) = some y := by
  have h1 : y / 1000 % 10 < 10 := Nat.mod_lt _ (by norm_num)
  have h2 : y / 100 % 10 < 10 := Nat.mod_lt _ (by norm_num)
  have h3 : y / 10 % 10 < 10 := Nat.mod_lt _ (by norm_num)
  have h4 : y % 10 < 10 := Nat.mod_lt _ (by norm_num)
  have hv : 1000 * (y / 1000 % 10) + 100 * (y / 100 % 10) + 10 * (y / 10 % 10) + y % 10 = y := by
    omega
  rw [pad4, yearTok, digitChar_isDig _ h1, digitChar_isDig _ h2, digitChar_isDig _ h3,
    digitChar_isDig _ h4]
  simp only [Bool.and_self, if_true, digitVal_digitChar _ h1, digitVal_digitChar _ h2,
    digitVal_digitChar _ h3, digitVal_digitChar _ h4, hv]

theorem daysInMonth_le (y m : Nat) : daysInMonth y m ≤ 31 := by
  unfold daysInMonth
  split <;> (try split) <;> omega

/-- `Birthday.init` on a fully zero-padded rendering of a valid date. -/
theorem birthday_init_pads {y m d : Nat} (hv : validDate y m d = true) :
    Birthday.init ⟨pad2 d ++ '.' :: (pad2 m ++ '.' :: pad4 y)⟩ = .ok ⟨⟨y, m, d⟩⟩ := by
  have hvp : 1 ≤ y ∧ y ≤ 9999 ∧ 1 ≤ m ∧ m ≤ 12 ∧ 1 ≤ d ∧ d ≤ daysInMonth y m := by
    rw [validDate] at hv
    simp only [Bool.and_eq_true, decide_eq_true_eq] at hv
    tauto
  obtain ⟨hy1, hy2, hm1, hm2, hd1, hd2⟩ := hvp
  have hd31 : d ≤ 31 := le_trans hd2 (daysInMonth_le y m)
  have hsplit : splitOnDot (pad2 d ++ '.' :: (pad2 m ++ '.' :: pad4 y))
      = [pad2 d, pad2 m, pad4 y] := by
    rw [splitOnDot_append _ (pad2_no_dot d), splitOnDot_append _ (pad2_no_dot m),
      splitOnDot_no_dot (pad4_no_dot y)]
  have hdata : (⟨pad2 d ++ '.' :: (pad2 m ++ '.' :: pad4 y)⟩ : String).data
      = pad2 d ++ '.' :: (pad2 m ++ '.' :: pad4 y) := rfl
  rw [Birthday.init, hdata, hsplit]
  simp [dayTok_pad2 hd1 hd31, monthTok_pad2 hm1 hm2, yearTok_pad4 hy2, hv]

/-- Inversion of a successful `Birthday.init` run. -/
theorem birthday_init_ok_inv {s : String} {b : Birthday} (h : Birthday.init s = .ok b) :
    ∃ ds ms ys d m y, splitOnDot s.data = [ds, ms, ys] ∧ dayTok ds = some d ∧
      monthTok ms = some m ∧ yearTok ys = some y ∧ validDate y m d = true ∧
      b = ⟨⟨y, m, d⟩⟩ := by
  unfold Birthday.init at h
  split at h
  · next ds ms ys hsp =>
    split at h
    · next d m y hd hm hy =>
      split at h
      · next hv =>
        exact ⟨ds, ms, ys, d, m, y, hsp, hd, hm, hy, hv, (Except.ok.inj h).symm⟩
      · next hv => exact absurd h (by simp)
    · next x1 x2 x3 hne => exact absurd h (by simp)
  · next hne => exact absurd h (by simp)

/-- Every run of `Birthday.init` ends in `ok` or in the fixed `ValueError`. -/
theorem birthday_init_dichotomy (s : String) :
    (∃ b, Birthday.init s = .ok b) ∨
      Birthday.init s = .error (.valueError birthdayErrMsg) := by
  unfold Birthday.init
  split
  · split
    · split
      · exact Or.inl ⟨_, rfl⟩
      · exact Or.inr rfl
    all_goals exact Or.inr rfl
  · exact Or.inr rfl

/-- `Birthday.init` succeeds exactly on the lenient format. -/
theorem birthday_init_ok_iff (s : String) :
    (∃ b, Birthday.init s = .ok b) ↔ LenientFmt s := by
  constructor
  · rintro ⟨b, hb⟩
    obtain ⟨ds, ms, ys, d, m, y, hsp, hd, hm, hy, hv, rfl⟩ := birthday_init_ok_inv hb
    refine ⟨ds, ms, ys, d, m, y, ?_, hd, hm, hy, hv⟩
    have hjoin := joinDots_splitOnDot s.data
    rw [hsp] at hjoin
    rw [← hjoin]
    simp [joinDots]
  · rintro ⟨ds, ms, ys, d, m, y, hdata, hd, hm, hy, hv⟩
    have hsplit : splitOnDot s.data = [ds, ms, ys] := by
      rw [hdata, splitOnDot_append _ (dayTok_no_dot hd),
        splitOnDot_append _ (monthTok_no_dot hm), splitOnDot_no_dot (yearTok_no_dot hy)]
    refine ⟨⟨⟨y, m, d⟩⟩, ?_⟩
    rw [Birthday.init, hsplit]
    simp [hd, hm, hy, hv]

/-- C5 counterexample: the claim requires a two-digit zero-padded day and
month, but `Birthday("1.3.1990")` succeeds: `strptime`'s `%d` and `%m`
accept single digits, so the non-zero-padded string parses to
1 March 1990 even though it is not in `DD.MM.YYYY` shape. -/
theorem birthday_init_accepts_unpadded :
    Birthday.init "1.3.1990" = .ok ⟨⟨1990, 3, 1⟩⟩ ∧
      isZeroPaddedDMY "1.3.1990" = false := by
  exact ⟨rfl, by decide⟩

/-- C5 (amended): `Birthday(value)` fails with `InvalidFormat` unless the
string is day-token `.` month-token `.` year-token — day one digit `1-9`
(optionally zero- or space-padded to two characters), month one or two
digits with value `1-12`, year exactly four digits — and the triple is a
real calendar date; zero padding is accepted but not required. -/
theorem birthday_init_characterization (s : String) :
    ((∃ b, Birthday.init s = .ok b) ↔ LenientFmt s) ∧
    (Birthday.init s = .error (.valueError birthdayErrMsg) ↔ ¬ LenientFmt s) := by
  refine ⟨birthday_init_ok_iff s, ?_, ?_⟩
  · intro herr hfmt
    rcases (birthday_init_ok_iff s).mpr hfmt with ⟨b, hb⟩
    rw [hb] at herr
    exact absurd herr (by simp)
  · intro hfmt
    rcases birthday_init_dichotomy s with ⟨b, hb⟩ | herr
    · exact absurd ((birthday_init_ok_iff s).mp ⟨b, hb⟩) hfmt
    · exact herr

/-- C6 counterexample: the claim's round trip fails for years below 1000:
`Birthday("15.03.0005")` succeeds (a zero-padded real date), but rendering
prints the year unpadded — `"15.03.5"` — because the platform's
`strftime("%Y")` does not zero-pad, so the result differs from the input. -/
theorem birthday_roundtrip_fails_small_year :
    Birthday.init "15.03.0005" = .ok ⟨⟨5, 3, 15⟩⟩ ∧
      Birthday.toString ⟨⟨5, 3, 15⟩⟩ = "15.03.5" ∧
      ("15.03.5" : String) ≠ "15.03.0005" := by
  exact ⟨rfl, rfl, by decide⟩

/-- C6 (amended): for every zero-padded `DD.MM.YYYY` string denoting a
real calendar date with year at least 1000, `Birthday(s)` succeeds and
`str(...)` renders it back to exactly `s`. -/
theorem birthday_roundtrip (s : String) (y m d : Nat)
    (hs : s.data = pad2 d ++ '.' :: (pad2 m ++ '.' :: pad4 y))
    (hv : validDate y m d = true) (hy : 1000 ≤ y) :
    Birthday.init s = .ok ⟨⟨y, m, d⟩⟩ ∧ Birthday.toString ⟨⟨y, m, d⟩⟩ = s := by
  have hse : s = ⟨pad2 d ++ '.' :: (pad2 m ++ '.' :: pad4 y)⟩ := by
    cases s with
    | mk data => exact congrArg String.mk hs
  subst hse
  constructor
  · exact birthday_init_pads hv
  · simp only [Birthday.toString]
    rw [yearChars, if_pos hy]

/-- Witness for `birthday_roundtrip` at `"15.03.1990"`. -/
theorem birthday_roundtrip_witness :
    Birthday.init "15.03.1990" = .ok ⟨⟨1990, 3, 15⟩⟩ ∧
      Birthday.toString ⟨⟨1990, 3, 15⟩⟩ = "15.03.1990" :=
  birthday_roundtrip "15.03.1990" 1990 3 15 (by decide) (by decide) (by decide)

/-! ## Claims C1 and C2: `edit_phone` skips validation -/

/-- C1: the claim (and spec §4.2/§7) says `edit_phone` validates the new
number before mutating and fails with `InvalidFormat` on a bad one,
leaving the list unchanged.  The code never validates: at a record
holding the valid phone `"1234567890"`, editing it to `"abc"` succeeds
and stores the invalid string in place. -/
theorem edit_phone_skips_validation :
    Record.edit_phone ⟨⟨"Ann"⟩, [⟨"1234567890"⟩], none⟩ "1234567890" "abc"
        = .ok ⟨⟨"Ann"⟩, [⟨"abc"⟩], none⟩ ∧
      Phone.validate "abc" = false := by
  exact ⟨rfl, by decide⟩

/-- C2: the phone-format invariant does not survive every operation
sequence: from a fresh record, `add_phone "0123456789"` (valid) and then
`edit_phone "0123456789" "not-number"` leave a phone in the list that
fails the ten-digit invariant. -/
theorem record_invariant_broken :
    (Record.init "Bob").bind (fun r => r.add_phone "0123456789")
        = .ok ⟨⟨"Bob"⟩, [⟨"0123456789"⟩], none⟩ ∧
      Record.edit_phone ⟨⟨"Bob"⟩, [⟨"0123456789"⟩], none⟩ "0123456789" "not-number"
        = .ok ⟨⟨"Bob"⟩, [⟨"not-number"⟩], none⟩ ∧
      (⟨⟨"Bob"⟩, [⟨"not-number"⟩], none⟩ : Record).phones.all
        (fun p => Phone.validate p.value) = false := by
  exact ⟨rfl, rfl, by decide⟩

/-! ## Claim C3: the upcoming-birthday filter -/

theorem upcomingAux_filter (today : PyDate) (days : Int) (rs : List Record)
    (hok : rs.all (replaceOk today) = true) :
    upcomingAux today days rs = .ok (rs.filter (qualifies today days)) := by
  induction rs with
  | nil => rfl
  | cons r rest ih =>
    rw [List.all_cons, Bool.and_eq_true] at hok
    obtain ⟨hr, hrest⟩ := hok
    cases hb : r.birthday with
    | none =>
      have hq : qualifies today days r = false := by
        rw [qualifies, hb]
      simp [upcomingAux, hb, ih hrest, List.filter_cons, hq]
    | some b =>
      have hv : validDate today.year b.value.month b.value.day = true := by
        rw [replaceOk, hb] at hr
        exact hr
      have hrep : dateReplaceYear b.value today.year
          = .ok ⟨today.year, b.value.month, b.value.day⟩ := by
        rw [dateReplaceYear, if_pos hv]
      have hqe : qualifies today days r
          = (decide (0 ≤ dateSub ⟨today.year, b.value.month, b.value.day⟩ today) &&
              decide (dateSub ⟨today.year, b.value.month, b.value.day⟩ today ≤ days)) := by
        simp only [qualifies, hb]
      by_cases hq : (0 ≤ dateSub ⟨today.year, b.value.month, b.value.day⟩ today ∧
          dateSub ⟨today.year, b.value.month, b.value.day⟩ today ≤ days)
      · have hqb : qualifies today days r = true := by
          rw [hqe, decide_eq_true hq.1, decide_eq_true hq.2]
          rfl
        simp [upcomingAux, hb, hrep, hq, ih hrest, List.filter_cons, hqb, Except.map]
      · have hqb : qualifies today days r = false := by
          rcases not_and_or.mp hq with h | h
          · rw [hqe, decide_eq_false h, Bool.false_and]
          · rw [hqe, decide_eq_false h, Bool.and_false]
        simp [upcomingAux, hb, hrep, hq, ih hrest, List.filter_cons, hqb]

/-- C3: whenever every stored birthday exists in today's year (the query
does not hit the Feb 29 raise), `get_upcoming_birthdays` returns exactly
the records whose birthday, with the year replaced by today's year, lies
between 0 and `days` days from today (both ends included), in the book's
insertion order — so a birthday falling today is kept and one `days + 1`
days away is dropped, with no wrap to next year. -/
theorem upcoming_birthdays_filter (book : AddressBook) (days : Int) (today : PyDate)
    (hdays : 0 ≤ days) (hok : allReplaceOk book today = true) :
    get_upcoming_birthdays book days today
      = .ok ((book.map Prod.snd).filter (qualifies today days)) := by
  rw [get_upcoming_birthdays]
  exact upcomingAux_filter today days (book.map Prod.snd) hok

/-- Witness for `upcoming_birthdays_filter`: with `today` = 2025-03-10 and
a 7-day window, a record whose birthday falls on today's month/day is
returned (day 0), one 8 days out is not, one with no birthday is not, and
insertion order is kept. -/
theorem upcoming_birthdays_filter_witness :
    get_upcoming_birthdays
        [("Ann", ⟨⟨"Ann"⟩, [], some ⟨⟨1990, 3, 10⟩⟩⟩),
         ("Bob", ⟨⟨"Bob"⟩, [], some ⟨⟨1990, 3, 18⟩⟩⟩),
         ("Eve", ⟨⟨"Eve"⟩, [], none⟩)] 7 ⟨2025, 3, 10⟩
      = .ok [⟨⟨"Ann"⟩, [], some ⟨⟨1990, 3, 10⟩⟩⟩] := by
  have h := upcoming_birthdays_filter
    [("Ann", ⟨⟨"Ann"⟩, [], some ⟨⟨1990, 3, 10⟩⟩⟩),
     ("Bob", ⟨⟨"Bob"⟩, [], some ⟨⟨1990, 3, 18⟩⟩⟩),
     ("Eve", ⟨⟨"Eve"⟩, [], none⟩)] 7 ⟨2025, 3, 10⟩ (by decide) (by decide)
  rw [h]
  rfl

/-! ## Claim C10: February 29 aborts the query -/

theorem validDate_feb29_nonleap {y : Nat} (hleap : isLeap y = false) :
    validDate y 2 29 = false := by
  rw [validDate, daysInMonth, hleap]
  simp

theorem upcomingAux_feb29 (today : PyDate) (days : Int) (rs : List Record)
    (hfeb : rs.any recordFeb29 = true) (hleap : isLeap today.year = false) :
    ∃ m, upcomingAux today days rs = .error (.valueError m) := by
  induction rs with
  | nil => simp at hfeb
  | cons r rest ih =>
    rw [List.any_cons, Bool.or_eq_true] at hfeb
    cases hb : r.birthday with
    | none =>
      have hfr : recordFeb29 r = false := by rw [recordFeb29, hb]
      rw [hfr] at hfeb
      rcases hfeb with hfeb | hfeb
      · exact absurd hfeb (by simp)
      obtain ⟨m, hm⟩ := ih hfeb
      exact ⟨m, by simp only [upcomingAux, hb]; exact hm⟩
    | some b =>
      cases hrep : dateReplaceYear b.value today.year with
      | error e =>
        have he : e = .valueError dayRangeMsg := by
          rw [dateReplaceYear] at hrep
          split at hrep
          · exact absurd hrep (by simp)
          · exact (Except.error.inj hrep).symm
        refine ⟨dayRangeMsg, ?_⟩
        simp only [upcomingAux, hb, hrep, he]
      | ok bd =>
        have hv : validDate today.year b.value.month b.value.day = true := by
          rw [dateReplaceYear] at hrep
          split at hrep
          · next hvv => exact hvv
          · exact absurd hrep (by simp)
        have hfr : recordFeb29 r = false := by
          rw [recordFeb29, hb]
          by_contra hc
          rw [Bool.not_eq_false, Bool.and_eq_true, decide_eq_true_eq,
            decide_eq_true_eq] at hc
          obtain ⟨h2, h29⟩ := hc
          rw [h2, h29, validDate_feb29_nonleap hleap] at hv
          exact absurd hv (by simp)
        rw [hfr] at hfeb
        rcases hfeb with hfeb | hfeb
        · exact absurd hfeb (by simp)
        obtain ⟨m, hm⟩ := ih hfeb
        refine ⟨m, ?_⟩
        simp only [upcomingAux, hb, hrep]
        split
        · rw [hm]; rfl
        · exact hm

/-- C10: on any book state holding a record whose birthday is February 29,
running `get_upcoming_birthdays` in a non-leap current year raises a
`ValueError` from `replace(year=today.year)` instead of returning a list:
the query is partial over reachable states. -/
theorem upcoming_birthdays_feb29_raises (book : AddressBook) (days : Int) (today : PyDate)
    (hfeb : hasFeb29 book = true) (hleap : isLeap today.year = false) :
    ∃ m, get_upcoming_birthdays book days today = .error (.valueError m) := by
  rw [get_upcoming_birthdays]
  exact upcomingAux_feb29 today days (book.map Prod.snd) hfeb hleap

/-- Witness for `upcoming_birthdays_feb29_raises`: a book holding one
record with birthday 2024-02-29, queried with today in 2025 (not a leap
year). -/
theorem upcoming_birthdays_feb29_raises_witness :
    ∃ m, get_upcoming_birthdays [("Lia", ⟨⟨"Lia"⟩, [], some ⟨⟨2024, 2, 29⟩⟩⟩)]
        7 ⟨2025, 3, 10⟩ = .error (.valueError m) :=
  upcoming_birthdays_feb29_raises [("Lia", ⟨⟨"Lia"⟩, [], some ⟨⟨2024, 2, 29⟩⟩⟩)]
    7 ⟨2025, 3, 10⟩ (by decide) (by decide)

/-! ## Claim C8: handlers never let an error kind escape -/

theorem input_error_isOk {x : Except PyErr String}
    (h : ∀ e, x = .error e → e.caught = true) : (input_error x).isOk = true := by
  cases x with
  | ok s => rfl
  | error e =>
    have hc := h e rfl
    cases e with
    | valueError m => rfl
    | keyError => rfl
    | indexError => rfl
    | otherError => exact absurd hc (by simp [PyErr.caught])

theorem except_map_error {α β : Type} {f : α → β} {x : Except PyErr α} {e : PyErr}
    (h : x.map f = .error e) : x = .error e := by
  cases x with
  | ok v => simp [Except.map] at h
  | error e2 => simpa [Except.map] using h

theorem name_init_error {s : String} {e : PyErr} (h : Name.init s = .error e) :
    e = .valueError nameErrMsg := by
  unfold Name.init at h
  split at h
  · exact (Except.error.inj h).symm
  · exact absurd h (by simp)

theorem phone_init_error {s : String} {e : PyErr} (h : Phone.init s = .error e) :
    e = .valueError phoneErrMsg := by
  unfold Phone.init at h
  split at h
  · exact absurd h (by simp)
  · exact (Except.error.inj h).symm

theorem birthday_init_error {s : String} {e : PyErr} (h : Birthday.init s = .error e) :
    e = .valueError birthdayErrMsg := by
  rcases birthday_init_dichotomy s with ⟨b, hb⟩ | herr
  · rw [hb] at h
    exact absurd h (by simp)
  · rw [herr] at h
    exact (Except.error.inj h).symm

theorem record_init_error {s : String} {e : PyErr} (h : Record.init s = .error e) :
    e = .valueError nameErrMsg := by
  rw [Record.init] at h
  exact name_init_error (except_map_error h)

theorem add_phone_error {r : Record} {s : String} {e : PyErr}
    (h : r.add_phone s = .error e) : e = .valueError phoneErrMsg := by
  rw [Record.add_phone] at h
  exact phone_init_error (except_map_error h)

theorem add_birthday_error {r : Record} {s : String} {e : PyErr}
    (h : r.add_birthday s = .error e) : e = .valueError birthdayErrMsg := by
  rw [Record.add_birthday] at h
  exact birthday_init_error (except_map_error h)

theorem edit_phone_error {r : Record} {o n : String} {e : PyErr}
    (h : r.edit_phone o n = .error e) : e = .valueError editNotFoundMsg := by
  rw [Record.edit_phone] at h
  split at h
  · exact absurd h (by simp)
  · exact (Except.error.inj h).symm

theorem upcomingAux_error {today : PyDate} {days : Int} {rs : List Record} {e : PyErr}
    (h : upcomingAux today days rs = .error e) : e = .valueError dayRangeMsg := by
  induction rs with
  | nil => simp [upcomingAux] at h
  | cons r rest ih =>
    cases hb : r.birthday with
    | none =>
      simp only [upcomingAux, hb] at h
      exact ih h
    | some b =>
      cases hrep : dateReplaceYear b.value today.year with
      | error e2 =>
        have he2 : e2 = .valueError dayRangeMsg := by
          rw [dateReplaceYear] at hrep
          split at hrep
          · exact absurd hrep (by simp)
          · exact (Except.error.inj hrep).symm
        simp only [upcomingAux, hb, hrep] at h
        exact (Except.error.inj h) ▸ he2
      | ok bd =>
        simp only [upcomingAux, hb, hrep] at h
        split at h
        · exact ih (except_map_error h)
        · exact ih h

theorem add_contact_body_caught {args : List String} {book : AddressBook} {e : PyErr}
    (h : (add_contact_body args book).1 = .error e) : e.caught = true := by
  rcases args with _ | ⟨name, _ | ⟨phone, rest⟩⟩
  · simp only [add_contact_body] at h
    rw [← Except.error.inj h]
    rfl
  · simp only [add_contact_body] at h
    rw [← Except.error.inj h]
    rfl
  · simp only [add_contact_body] at h
    cases hf : find_record book name with
    | some r =>
      simp only [hf] at h
      split at h
      · cases hp : r.add_phone phone with
        | ok r2 => simp only [hp] at h; simp at h
        | error e2 =>
          simp only [hp] at h
          rw [← Except.error.inj h, add_phone_error hp]
          rfl
      · simp at h
    | none =>
      simp only [hf] at h
      cases hr : Record.init name with
      | error e2 =>
        simp only [hr] at h
        rw [← Except.error.inj h, record_init_error hr]
        rfl
      | ok r =>
        simp only [hr] at h
        split at h
        · cases hp : r.add_phone phone with
          | ok r2 => simp only [hp] at h; simp at h
          | error e2 =>
            simp only [hp] at h
            rw [← Except.error.inj h, add_phone_error hp]
            rfl
        · simp at h

theorem change_contact_body_caught {args : List String} {book : AddressBook} {e : PyErr}
    (h : (change_contact_body args book).1 = .error e) : e.caught = true := by
  rcases args with _ | ⟨name, _ | ⟨a2, _ | ⟨a3, _ | ⟨a4, rest⟩⟩⟩⟩
  · simp only [change_contact_body] at h
    rw [← Except.error.inj h]
    rfl
  · simp only [change_contact_body] at h
    rw [← Except.error.inj h]
    rfl
  · simp only [change_contact_body] at h
    rw [← Except.error.inj h]
    rfl
  · simp only [change_contact_body] at h
    cases hf : find_record book name with
    | some r =>
      simp only [hf] at h
      cases he : r.edit_phone a2 a3 with
      | ok r2 => simp only [he] at h; simp at h
      | error e2 =>
        simp only [he] at h
        rw [← Except.error.inj h, edit_phone_error he]
        rfl
    | none => simp only [hf] at h; simp at h
  · simp only [change_contact_body] at h
    rw [← Except.error.inj h]
    rfl

theorem show_phone_body_caught {args : List String} {book : AddressBook} {e : PyErr}
    (h : (show_phone_body args book).1 = .error e) : e.caught = true := by
  rcases args with _ | ⟨name, rest⟩
  · simp only [show_phone_body] at h
    rw [← Except.error.inj h]
    rfl
  · simp only [show_phone_body] at h
    cases hf : find_record book name with
    | some r => simp only [hf] at h; simp at h
    | none => simp only [hf] at h; simp at h

theorem show_birthday_body_caught {args : List String} {book : AddressBook} {e : PyErr}
    (h : (show_birthday_body args book).1 = .error e) : e.caught = true := by
  rcases args with _ | ⟨name, rest⟩
  · simp only [show_birthday_body] at h
    rw [← Except.error.inj h]
    rfl
  · simp only [show_birthday_body] at h
    cases hf : find_record book name with
    | some r => simp only [hf] at h; simp at h
    | none => simp only [hf] at h; simp at h

theorem add_birthday_body_caught {args : List String} {book : AddressBook} {e : PyErr}
    (h : (add_birthday_body args book).1 = .error e) : e.caught = true := by
  rcases args with _ | ⟨name, _ | ⟨a2, _ | ⟨a3, rest⟩⟩⟩
  · simp only [add_birthday_body] at h
    rw [← Except.error.inj h]
    rfl
  · simp only [add_birthday_body] at h
    rw [← Except.error.inj h]
    rfl
  · simp only [add_birthday_body] at h
    cases hf : find_record book name with
    | some r =>
      simp only [hf] at h
      cases ha : r.add_birthday a2 with
      | ok r2 => simp only [ha] at h; simp at h
      | error e2 =>
        simp only [ha] at h
        rw [← Except.error.inj h, add_birthday_error ha]
        rfl
    | none => simp only [hf] at h; simp at h
  · simp only [add_birthday_body] at h
    rw [← Except.error.inj h]
    rfl

theorem birthdays_body_caught {args : List String} {book : AddressBook} {today : PyDate}
    {e : PyErr} (h : (birthdays_body args book today).1 = .error e) : e.caught = true := by
  cases hu : get_upcoming_birthdays book 7 today with
  | error e2 =>
    simp only [birthdays_body, hu] at h
    have he2 : e2 = .valueError dayRangeMsg := by
      rw [get_upcoming_birthdays] at hu
      exact upcomingAux_error hu
    rw [← Except.error.inj h, he2]
    rfl
  | ok ups =>
    rcases ups with _ | ⟨u, us⟩ <;> simp only [birthdays_body, hu] at h <;> simp at h

/-- C8: for every argument list, book state and current date, each of the
seven command handlers returns a string: the decorated bodies only ever
raise the kinds that `input_error` catches and converts (`InvalidFormat`
and `NotFound` as `ValueError`/`KeyError`, `MissingArguments` as
`IndexError`/unpacking `ValueError`), and `all` is a plain total string
computation. -/
theorem handlers_return_strings (args : List String) (book : AddressBook) (today : PyDate) :
    (input_error (add_contact_body args book).1).isOk = true ∧
    (input_error (change_contact_body args book).1).isOk = true ∧
    (input_error (show_phone_body args book).1).isOk = true ∧
    (input_error (show_birthday_body args book).1).isOk = true ∧
    (input_error (add_birthday_body args book).1).isOk = true ∧
    (input_error (birthdays_body args book today).1).isOk = true ∧
    ∃ s : String, show_all book = s := by
  refine ⟨input_error_isOk (fun e he => add_contact_body_caught he),
    input_error_isOk (fun e he => change_contact_body_caught he),
    input_error_isOk (fun e he => show_phone_body_caught he),
    input_error_isOk (fun e he => show_birthday_body_caught he),
    input_error_isOk (fun e he => add_birthday_body_caught he),
    input_error_isOk (fun e he => birthdays_body_caught he),
    ⟨show_all book, rfl⟩⟩

/-! ## Claim C9: `add` inserts before it validates -/

theorem find_record_dictSet (book : AddressBook) (k : String) (v : Record) :
    find_record (dictSet book k v) k = some v := by
  induction book with
  | nil => simp [dictSet, find_record]
  | cons e rest ih =>
    obtain ⟨k2, v2⟩ := e
    by_cases hk : k2 = k
    · simp [dictSet, hk, find_record]
    · simp [dictSet, hk, find_record, ih]

/-- C9 counterexample: the claim as stated also covers the empty phone
argument `""` (not ten digits), but there `add_contact` returns the
SUCCESS message — `if phone:` skips `add_phone` entirely — not an error
string; and for an absent empty name the handler fails inside `Record`
creation and inserts nothing.  Both force the amendment to non-empty
name and phone. -/
theorem add_contact_counterexample :
    add_contact_body ["Ann", ""] []
        = (.ok "Контакт додано.", [("Ann", ⟨⟨"Ann"⟩, [], none⟩)]) ∧
      Phone.validate "" = false ∧
      find_record [] "Ann" = none ∧
      add_contact_body ["", "abc"] [] = (.error (.valueError nameErrMsg), []) ∧
      Phone.validate "abc" = false := by
  exact ⟨rfl, by decide, rfl, rfl, by decide⟩

/-- C9 (amended): calling `add` with a non-empty name absent from the
book and a non-empty phone argument that is not ten digits raises the
phone `ValueError` (rendered as an error string by the decorator), yet
afterwards the book contains a fresh record under that name with an
empty phone list: the record is inserted before the phone is validated. -/
theorem add_contact_inserts_before_validation (name phone : String) (rest : List String)
    (book : AddressBook) (hname : name ≠ "") (hphone : phone ≠ "")
    (hval : Phone.validate phone = false) (habs : find_record book name = none) :
    (add_contact_body (name :: phone :: rest) book).1
        = .error (.valueError phoneErrMsg) ∧
      find_record (add_contact_body (name :: phone :: rest) book).2 name
        = some ⟨⟨name⟩, [], none⟩ := by
  have hrec : Record.init name = .ok ⟨⟨name⟩, [], none⟩ := by
    rw [Record.init, Name.init, if_neg hname]
    rfl
  have hadd : Record.add_phone ⟨⟨name⟩, [], none⟩ phone
      = .error (.valueError phoneErrMsg) := by
    rw [Record.add_phone, Phone.init, hval]
    rfl
  constructor
  · simp [add_contact_body, habs, hrec, hphone, hadd]
  · simp [add_contact_body, habs, hrec, hphone, hadd, add_record]
    exact find_record_dictSet book name ⟨⟨name⟩, [], none⟩

/-- Witness for `add_contact_inserts_before_validation` at name `"Ann"`,
phone `"abc"`, on the empty book. -/
theorem add_contact_inserts_before_validation_witness :
    (add_contact_body ["Ann", "abc"] []).1 = .error (.valueError phoneErrMsg) ∧
      find_record (add_contact_body ["Ann", "abc"] []).2 "Ann"
        = some ⟨⟨"Ann"⟩, [], none⟩ :=
  add_contact_inserts_before_validation "Ann" "abc" [] [] (by decide) (by decide)
    (by decide) rfl

end HW10
